import Mathlib

/-!
# Verification of the page-comparison engine (`server.js`, primary variant)

Shallow embedding of the core comparison engine of the repository: the
page fetcher (`fetchPageData`, server.js lines 42–130), the OG-image
CDN-migration classifier (`isExpectedOgImageMigration`, lines 132–144),
the page-pair comparator (`comparePages`, lines 146–237) and the batch
orchestrator (`runParser`, lines 1114–1216).  The source file contains
several concatenated server variants; the embedding follows the first,
most complete variant, which is the one the specification designates as
authoritative.

JavaScript strings are `String`, numbers are `Nat`, `null`/`undefined`
are `Option`, and JS objects become structures.  Template-literal
interpolation of a possibly-`null` value renders `"null"`, which the
`showOptNat` / `showOptStr` helpers reproduce.
-/

/-- The `checks` object: four independently togglable boolean flags
(`{title, description, h1, ogImage}`). -/
structure Checks where
  title : Bool
  description : Bool
  h1 : Bool
  ogImage : Bool
deriving Repr, DecidableEq

/-- The object returned by `fetchPageData` (both the success and the
failure branch return this exact shape). -/
structure PageData where
  url : String
  title : String
  description : String
  h1 : String
  ogImage : String
  status : Nat
  error : Option String
  redirected : Bool
  redirectStatus : Option Nat
  redirectUrl : Option String
deriving Repr, DecidableEq

/-- Whether the first list is an initial segment of the second. -/
def charsLeadWith : List Char → List Char → Bool
  | [], _ => true
  | _ :: _, [] => false
  | p :: ps, c :: cs => p == c && charsLeadWith ps cs

/-- Whether the pattern occurs as a contiguous segment of the list. -/
def charsOccurIn (pat : List Char) : List Char → Bool
  | [] => charsLeadWith pat []
  | c :: cs => charsLeadWith pat (c :: cs) || charsOccurIn pat cs

/-- JS `s.includes(pat)`: `true` iff `pat` occurs as a substring of `s`
(always true for the empty pattern). -/
def strContains (s pat : String) : Bool :=
  charsOccurIn pat.data s.data

/-- JS `s.trim()`: drop leading and trailing whitespace. -/
def jsTrim (s : String) : String :=
  ⟨((s.data.dropWhile Char.isWhitespace).reverse.dropWhile
      Char.isWhitespace).reverse⟩

/-- `prodIsWebflow` from `isExpectedOgImageMigration` (server.js 135–139):
the production image URL contains one of the four fixed legacy-CDN host
strings. -/
def prodIsWebflowHost (prodUrl : String) : Bool :=
  strContains prodUrl "cdn.prod.website-files.com" ||
  strContains prodUrl "uploads.webflow.com" ||
  strContains prodUrl "assets.website-files.com" ||
  strContains prodUrl "webflow-prod-assets"

/-- `devIsSanity` from `isExpectedOgImageMigration` (server.js 141): the
development image URL contains the fixed new-CDN host string. -/
def devIsSanityHost (devUrl : String) : Bool :=
  strContains devUrl "cdn.sanity.io"

/-- `isExpectedOgImageMigration` (server.js 132–144).  JS
`if (!prodUrl || !devUrl) return false` tests string falsiness, i.e.
emptiness. -/
def isExpectedOgImageMigration (prodUrl devUrl : String) : Bool :=
  if prodUrl.isEmpty || devUrl.isEmpty then false
  else prodIsWebflowHost prodUrl && devIsSanityHost devUrl

/-- JS template interpolation of a number-or-`null` value. -/
def showOptNat : Option Nat → String
  | none => "null"
  | some n => toString n

/-- JS template interpolation of a string-or-`null` value. -/
def showOptStr : Option String → String
  | none => "null"
  | some s => s

/-- JS `array.join(', ')`. -/
def joinNotes : List String → String
  | [] => ""
  | [s] => s
  | s :: rest => s ++ ", " ++ joinNotes rest

/-- `bothOk` (server.js 147). -/
def bothOkB (p d : PageData) : Bool :=
  p.status == 200 && d.status == 200

/-- `titleMatch` (server.js 149). -/
def titleMatchB (p d : PageData) (c : Checks) : Bool :=
  !c.title || p.title == d.title

/-- `descMatch` (server.js 150). -/
def descMatchB (p d : PageData) (c : Checks) : Bool :=
  !c.description || p.description == d.description

/-- `h1Match` (server.js 151). -/
def h1MatchB (p d : PageData) (c : Checks) : Bool :=
  !c.h1 || p.h1 == d.h1

/-- `ogImageMatch` (server.js 152). -/
def ogImageMatchB (p d : PageData) (c : Checks) : Bool :=
  !c.ogImage || p.ogImage == d.ogImage

/-- `ogImageMigration` (server.js 154–155). -/
def ogImageMigrationB (p d : PageData) (c : Checks) : Bool :=
  c.ogImage && !(ogImageMatchB p d c) &&
    isExpectedOgImageMigration p.ogImage d.ogImage

/-- The note pushed for a failing production side (server.js 168–172). -/
def prodErrorNote (p : PageData) : String :=
  if p.redirected then
    "Prod: " ++ showOptNat p.redirectStatus ++ " redirect → " ++
      showOptStr p.redirectUrl
  else
    "Prod: " ++ toString p.status

/-- The note pushed for a failing development side (server.js 174–179). -/
def devErrorNote (d : PageData) : String :=
  if d.redirected then
    "Dev: " ++ showOptNat d.redirectStatus ++ " redirect → " ++
      showOptStr d.redirectUrl
  else
    "Dev: " ++ toString d.status

/-- Informational redirect note for the production side when both sides
are 200 (server.js 183–185). -/
def prodRedirectNote (p : PageData) : String :=
  "Prod redirected: " ++ showOptNat p.redirectStatus ++ " → " ++
    showOptStr p.redirectUrl

/-- Informational redirect note for the development side when both sides
are 200 (server.js 186–188). -/
def devRedirectNote (d : PageData) : String :=
  "Dev redirected: " ++ showOptNat d.redirectStatus ++ " → " ++
    showOptStr d.redirectUrl

/-- The migration-labeled OG-image note (server.js 196). -/
def ogImageMigrationNote : String :=
  "OG Image (CDN migration: Webflow→Sanity)"

/-- The ordered list of notes accumulated by the sequence of
`notes.push(...)` calls in `comparePages` (server.js 158–201).  The
imperative pushes are independent appends, rendered here as list
concatenation in the same order. -/
def comparePagesNotes (p d : PageData) (c : Checks) : List String :=
  if !(bothOkB p d) then
    (if p.status != 200 then [prodErrorNote p] else []) ++
    (if d.status != 200 then [devErrorNote d] else [])
  else
    (if p.redirected then [prodRedirectNote p] else []) ++
    (if d.redirected then [devRedirectNote d] else []) ++
    (if c.title && !(titleMatchB p d c) then ["Title"] else []) ++
    (if c.description && !(descMatchB p d c) then ["Description"] else []) ++
    (if c.h1 && !(h1MatchB p d c) then ["H1"] else []) ++
    (if c.ogImage && !(ogImageMatchB p d c) then
      [if ogImageMigrationB p d c then ogImageMigrationNote else "OG Image"]
     else [])

/-- The value of the `diffCount` counter at the end of `comparePages`
(server.js 159, 190–201): incremented once per enabled mismatching field,
except an OG-image mismatch classified as a migration; zero on the
`!bothOk` branch, where no increment is reachable. -/
def comparePagesDiffCount (p d : PageData) (c : Checks) : Nat :=
  if !(bothOkB p d) then 0
  else
    (if c.title && !(titleMatchB p d c) then 1 else 0) +
    (if c.description && !(descMatchB p d c) then 1 else 0) +
    (if c.h1 && !(h1MatchB p d c) then 1 else 0) +
    (if c.ogImage && !(ogImageMatchB p d c) && !(ogImageMigrationB p d c)
     then 1 else 0)

/-- The record object returned by `comparePages` (server.js 208–236). -/
structure ComparisonRecord where
  url : String
  status : String
  diffCount : Nat
  notes : String
  prodTitle : String
  devTitle : String
  titleMatch : String
  prodDescription : String
  devDescription : String
  descMatch : String
  prodH1 : String
  devH1 : String
  h1Match : String
  prodOgImage : String
  devOgImage : String
  ogImageMatch : String
  ogImageMigration : Bool
  prodStatus : Nat
  devStatus : Nat
  prodError : String
  devError : String
  prodRedirected : Bool
  prodRedirectStatus : Option Nat
  prodRedirectUrl : Option String
  devRedirected : Bool
  devRedirectStatus : Option Nat
  devRedirectUrl : Option String
deriving Repr, DecidableEq

attribute [ext] ComparisonRecord

/-- JS `x || null` on a number-or-`null`: `0` is falsy. -/
def orNullNat : Option Nat → Option Nat
  | some 0 => none
  | x => x

/-- JS `x || null` on a string-or-`null`: `""` is falsy. -/
def orNullStr : Option String → Option String
  | some "" => none
  | x => x

/-- `comparePages` (server.js 146–237).  `status` starts `'OK'`, becomes
`'ERROR'` on the `!bothOk` branch and `'DIFF'` when `diffCount > 0` on
the other branch; `notes` is the comma join, or the `'All good'`
sentinel when no note was pushed. -/
def comparePages (p d : PageData) (c : Checks) : ComparisonRecord :=
  let notesL := comparePagesNotes p d c
  let diffCount := comparePagesDiffCount p d c
  { url := p.url
    status :=
      if !(bothOkB p d) then "ERROR"
      else if diffCount > 0 then "DIFF" else "OK"
    diffCount := diffCount
    notes := if notesL.length > 0 then joinNotes notesL else "All good"
    prodTitle := p.title
    devTitle := d.title
    titleMatch := if titleMatchB p d c then "✅" else "❌"
    prodDescription := p.description
    devDescription := d.description
    descMatch := if descMatchB p d c then "✅" else "❌"
    prodH1 := p.h1
    devH1 := d.h1
    h1Match := if h1MatchB p d c then "✅" else "❌"
    prodOgImage := p.ogImage
    devOgImage := d.ogImage
    ogImageMatch :=
      if ogImageMatchB p d c then "✅"
      else if ogImageMigrationB p d c then "⚠️" else "❌"
    ogImageMigration := ogImageMigrationB p d c
    prodStatus := p.status
    devStatus := d.status
    prodError := p.error.getD ""
    devError := d.error.getD ""
    prodRedirected := p.redirected
    prodRedirectStatus := orNullNat p.redirectStatus
    prodRedirectUrl := orNullStr p.redirectUrl
    devRedirected := d.redirected
    devRedirectStatus := orNullNat d.redirectStatus
    devRedirectUrl := orNullStr d.redirectUrl }

/-!
## Page fetcher (`fetchPageData`, server.js 42–130)

The axios call is modelled by a `NetResult`: the list of redirect hops
the underlying client followed, plus the terminal outcome.  axios
resolves the promise exactly when the terminal response status is 2xx
(default `validateStatus`); any other terminal status rejects with
message `"Request failed with status code N"` and `error.response.status
= N`; a transport/timeout failure rejects with no response attached, so
`error.response?.status || 0` yields `0`.

The `beforeRedirect` hook fires once per redirect hop with the upcoming
request's options; the `if (!redirected)` guard in the source keeps only
the first firing, so `originalStatus` is the first hop's status code and
`redirectUrl` is the first hop's destination (`options.href`).  A hop's
destination is carried here directly as its pathname, representing
`new URL(options.href).pathname` applied to the absolute URL the client
supplies.
-/

/-- The four HTML queries the extractor performs, as an abstract document
capability: `$('title').text()`, `$('meta[name="description"]')
.attr('content')`, the text of each `$('h1')` in order, and
`$('meta[property="og:image"]').attr('content')`. -/
structure HtmlDoc where
  titleText : String
  metaDescription : Option String
  h1Texts : List String
  ogImageContent : Option String
deriving Repr, DecidableEq

/-- One redirect hop: the redirect response's status code and the
pathname of the destination the client is redirected to. -/
structure RedirectHop where
  statusCode : Nat
  targetPath : String
deriving Repr, DecidableEq

/-- Terminal outcome of the HTTP exchange: a response with some status
and body, or a transport-level failure with no response. -/
inductive NetTerminal where
  | response (status : Nat) (body : HtmlDoc)
  | netError (message : String)
deriving Repr, DecidableEq

/-- Everything the HTTP client observed for one request. -/
structure NetResult where
  hops : List RedirectHop
  terminal : NetTerminal
deriving Repr, DecidableEq

/-- The final resolved path of the exchange: the destination of the last
redirect hop, or the requested path when no redirect occurred. -/
def finalResolvedPath (net : NetResult) (requestPath : String) : String :=
  ((net.hops.getLast?).map RedirectHop.targetPath).getD requestPath

/-- `title` extraction (server.js 74–76): `$('title').text().trim() || ''`. -/
def extractTitle (c : Checks) (doc : HtmlDoc) : String :=
  if c.title then jsTrim doc.titleText else ""

/-- `description` extraction (server.js 78–80):
`$('meta[name="description"]').attr('content')?.trim() || ''`. -/
def extractDescription (c : Checks) (doc : HtmlDoc) : String :=
  if c.description then ((doc.metaDescription.map jsTrim).getD "") else ""

/-- `h1` extraction (server.js 82–88): every h1 text trimmed, joined with
`' | '`. -/
def extractH1 (c : Checks) (doc : HtmlDoc) : String :=
  if c.h1 then String.intercalate " | " (doc.h1Texts.map jsTrim) else ""

/-- `ogImage` extraction (server.js 90–92): the raw `content` attribute,
not trimmed. -/
def extractOgImage (c : Checks) (doc : HtmlDoc) : String :=
  if c.ogImage then doc.ogImageContent.getD "" else ""

/-- The axios rejection message for a non-2xx terminal response. -/
def axiosFailureMessage (status : Nat) : String :=
  "Request failed with status code " ++ toString status

/-- `fetchPageData` (server.js 42–130) for one request, given what the
HTTP client observed.  The `baseUrl` handling is dropped:
`adjustUrlForDev` is the identity (server.js 37–40), so the requested
path is the same on both hosts and only the path enters the result. -/
def fetchPageData (net : NetResult) (path : String) (checks : Checks) :
    PageData :=
  let redirected := !net.hops.isEmpty
  let firstHopStatus := (net.hops.head?).map RedirectHop.statusCode
  let firstHopPath := (net.hops.head?).map RedirectHop.targetPath
  match net.terminal with
  | NetTerminal.response st body =>
    if 200 ≤ st ∧ st < 300 then
      { url := path
        title := extractTitle checks body
        description := extractDescription checks body
        h1 := extractH1 checks body
        ogImage := extractOgImage checks body
        status := st
        error := none
        redirected := redirected
        redirectStatus := firstHopStatus
        redirectUrl := firstHopPath }
    else
      { url := path
        title := ""
        description := ""
        h1 := ""
        ogImage := ""
        status := st
        error := some (axiosFailureMessage st)
        redirected := redirected
        redirectStatus := firstHopStatus
        redirectUrl := firstHopPath }
  | NetTerminal.netError msg =>
      { url := path
        title := ""
        description := ""
        h1 := ""
        ogImage := ""
        status := 0
        error := some msg
        redirected := redirected
        redirectStatus := firstHopStatus
        redirectUrl := firstHopPath }

/-!
## Batch orchestrator (`runParser`, server.js 1114–1216)

The loop walks the URL list in batches of `BATCH_SIZE = config.batchSize
|| 5`.  Before each batch it reads the job's cooperative stop flag; the
flag reads are modelled by `stopFlag : Nat → Bool`, indexed by batch
number.  Within a batch, `Promise.all` runs one task per URL; tasks may
complete in any order, but each settled value is stored at the task's own
index of the result array.  That write-back is modelled explicitly: a
batch executes under a completion schedule (`sched`, one list of task
indices per batch, in completion order, duplicate and out-of-range
entries allowed and harmless), each completion writing its record into a
batch-indexed slot array.  `Promise.all` resolves only once every task
settled, so a schedule covering all indices of the batch corresponds to a
real execution.  The inter-batch `delay` has no observable effect in the
model and is dropped.  Dispatching the two fetches of one URL with
`Promise.all` has no observable order effect either, because both tasks
are pure in the model (`pageRecord`).
-/

/-- `prodData`/`devData` for one URL: what the two hosts' HTTP clients
observed, supplied as an environment. -/
def pageRecord (net : String → NetResult × NetResult) (checks : Checks)
    (url : String) : ComparisonRecord :=
  comparePages (fetchPageData (net url).1 url checks)
    (fetchPageData (net url).2 url checks) checks

/-- One task completion: store task `i`'s record into slot `i` of the
batch's result array (no-op for an out-of-range index, which corresponds
to no real task). -/
def writeSlot (f : String → ComparisonRecord) (urls : List String)
    (acc : List (Option ComparisonRecord)) (i : Nat) :
    List (Option ComparisonRecord) :=
  match urls[i]? with
  | some u => acc.set i (some (f u))
  | none => acc

/-- Execute one batch under a completion schedule: starting from an array
of unsettled slots, settle tasks in schedule order, each writing back at
its own index — the `Promise.all` write-back discipline. -/
def execBatch (f : String → ComparisonRecord) (urls : List String)
    (sched : List Nat) : List (Option ComparisonRecord) :=
  sched.foldl (writeSlot f urls) (List.replicate urls.length none)

/-- Run-summary counts (server.js 1188–1193). -/
structure RunSummary where
  total : Nat
  ok : Nat
  diff : Nat
  error : Nat
deriving Repr, DecidableEq

/-- `summary` (server.js 1188–1193). -/
def summarize (results : List ComparisonRecord) : RunSummary :=
  { total := results.length
    ok := (results.filter (fun r => r.status == "OK")).length
    diff := (results.filter (fun r => r.status == "DIFF")).length
    error := (results.filter (fun r => r.status == "ERROR")).length }

/-- The progress notifications `socket.emit('progress', ...)` issues,
keyed by their `type` field with the structured payload relevant to the
claims. -/
inductive ProgressEvent where
  | start (total : Nat)
  | fetching (current : Nat) (total : Nat) (batchSize : Nat)
  | compared (current : Nat) (total : Nat) (url : String) (status : String)
  | generating
  | complete (summary : RunSummary)
  | stopped
deriving Repr, DecidableEq

/-- The per-record `compared` events of one batch (server.js 1163–1173). -/
def comparedEvents (total : Nat) :
    Nat → List String → List ComparisonRecord → List ProgressEvent
  | done, u :: us, r :: rs =>
      ProgressEvent.compared (done + 1) total u r.status ::
        comparedEvents total (done + 1) us rs
  | _, _, _ => []

/-- The batch loop (server.js 1130–1178), returning the emitted events,
the accumulated records, and whether the run was stopped.  The loop runs
at most one iteration per URL (each iteration consumes at least one URL),
so structural fuel initialized to the URL-list length bounds it; running
out of fuel can only coincide with the list being exhausted, where the
value agrees with the loop's normal exit. -/
def runBatchesAux (f : String → ComparisonRecord) (bs total : Nat)
    (stopFlag : Nat → Bool) (sched : Nat → List Nat) :
    Nat → List String → Nat → Nat →
      List ProgressEvent × List ComparisonRecord × Bool
  | 0, _, _, _ => ([], [], false)
  | Nat.succ fuel, remaining, done, bidx =>
    if remaining.isEmpty then ([], [], false)
    else if stopFlag bidx then ([ProgressEvent.stopped], [], true)
    else
      let batchUrls := remaining.take bs
      let batchRecs := (execBatch f batchUrls (sched bidx)).filterMap id
      let rest := runBatchesAux f bs total stopFlag sched fuel
        (remaining.drop bs) (done + batchUrls.length) (bidx + 1)
      (ProgressEvent.fetching (done + 1) total batchUrls.length ::
        (comparedEvents total done batchUrls batchRecs ++ rest.1),
       batchRecs ++ rest.2.1,
       rest.2.2)

/-- `BATCH_SIZE = config.batchSize || 5` (server.js 1118): `0` is falsy. -/
def effBatchSize (cfg : Nat) : Nat :=
  if cfg == 0 then 5 else cfg

/-- Outcome of one `runParser` run: the emitted event stream, the record
list it returned, and whether it returned through the stopped branch. -/
structure RunResult where
  events : List ProgressEvent
  results : List ComparisonRecord
  stopped : Bool
deriving Repr, DecidableEq

/-- `runParser` (server.js 1114–1216): emit `start`, run the batch loop,
and either return `{stopped: true, results}` after the `stopped` event,
or emit `generating`, build the summary, emit `complete` and return the
full results. -/
def runParser (net : String → NetResult × NetResult) (checks : Checks)
    (urls : List String) (cfgBatchSize : Nat) (stopFlag : Nat → Bool)
    (sched : Nat → List Nat) : RunResult :=
  let bs := effBatchSize cfgBatchSize
  let out := runBatchesAux (pageRecord net checks) bs urls.length stopFlag
    sched urls.length urls 0 0
  if out.2.2 then
    { events := ProgressEvent.start urls.length :: out.1
      results := out.2.1
      stopped := true }
  else
    { events := ProgressEvent.start urls.length ::
        (out.1 ++ [ProgressEvent.generating,
          ProgressEvent.complete (summarize out.2.1)])
      results := out.2.1
      stopped := false }

/-!
## Spec-side characterizations and concrete data

`specDiffCount` renders the specification's counting formula in its own
words, for the refinement comparison with the code's `diffCount`;
`nonOgDiffCount` names the three non-image contributions of the code's
counter.  The remaining definitions are concrete inputs used to evaluate
the development on closed instances.
-/

/-- Modelled from the spec's words: "`diffCount` equals the number of
enabled fields with unequal prod/dev values, excluding any OG-image
mismatch classified as a migration exception". -/
def specDiffCount (p d : PageData) (c : Checks) : Nat :=
  ((if c.title = true ∧ p.title ≠ d.title then 1 else 0) +
   (if c.description = true ∧ p.description ≠ d.description then 1 else 0) +
   (if c.h1 = true ∧ p.h1 ≠ d.h1 then 1 else 0) +
   (if c.ogImage = true ∧ p.ogImage ≠ d.ogImage then 1 else 0)) -
  (if c.ogImage = true ∧ p.ogImage ≠ d.ogImage ∧
      isExpectedOgImageMigration p.ogImage d.ogImage = true then 1 else 0)

/-- The part of the `diffCount` counter contributed by the three
non-image fields (server.js 190–192). -/
def nonOgDiffCount (p d : PageData) (c : Checks) : Nat :=
  (if c.title && !(titleMatchB p d c) then 1 else 0) +
  (if c.description && !(descMatchB p d c) then 1 else 0) +
  (if c.h1 && !(h1MatchB p d c) then 1 else 0)

/-- All four checks enabled. -/
def checksAll : Checks :=
  { title := true, description := true, h1 := true, ogImage := true }

/-- A checks object with the title flag disabled. -/
def checksNoTitle : Checks :=
  { title := false, description := true, h1 := true, ogImage := true }

/-- A sample parsed document. -/
def docSample : HtmlDoc :=
  { titleText := "Pricing", metaDescription := some "Plans",
    h1Texts := ["Pricing"], ogImageContent := some "https://x/img.png" }

/-- An exchange terminating in a plain 404 with no redirect. -/
def net404 : NetResult :=
  { hops := [], terminal := NetTerminal.response 404 docSample }

/-- An exchange following two redirect hops before a 200. -/
def netTwoHops : NetResult :=
  { hops := [{ statusCode := 301, targetPath := "/mid" },
             { statusCode := 302, targetPath := "/final" }],
    terminal := NetTerminal.response 200 docSample }

/-- An exchange following one redirect hop before a 200. -/
def netOneHop : NetResult :=
  { hops := [{ statusCode := 301, targetPath := "/new" }],
    terminal := NetTerminal.response 200 docSample }

/-- A clean 200 exchange. -/
def netOkWit : NetResult :=
  { hops := [], terminal := NetTerminal.response 200 docSample }

/-- A network environment where both hosts answer every path with the
same clean 200 response. -/
def netWit : String → NetResult × NetResult :=
  fun _ => (netOkWit, netOkWit)

/-- A healthy production-side fetch result. -/
def pOkW : PageData :=
  { url := "/pricing", title := "Pricing", description := "Plans",
    h1 := "Pricing", ogImage := "https://x/img.png", status := 200,
    error := none, redirected := false, redirectStatus := none,
    redirectUrl := none }

/-- A development-side result differing from `pOkW` in the title. -/
def dDiffW : PageData :=
  { pOkW with title := "Pricing Plans" }

/-- A development-side 404 result. -/
def d404W : PageData :=
  { url := "/pricing", title := "", description := "", h1 := "",
    ogImage := "", status := 404,
    error := some "Request failed with status code 404",
    redirected := false, redirectStatus := none, redirectUrl := none }

/-- A production-side result whose image lives on a legacy CDN host. -/
def pMigW : PageData :=
  { pOkW with ogImage := "https://assets.website-files.com/x/img.png" }

/-- A development-side result whose image lives on the new CDN host. -/
def dMigW : PageData :=
  { pOkW with ogImage := "https://cdn.sanity.io/images/y/img.png" }

/-!
## Field-level reading of `comparePages`

Definitional lemmas exposing the fields of the returned record in terms
of the named accumulator functions; each holds by `rfl`.
-/

theorem comparePages_status_def (p d : PageData) (c : Checks) :
    (comparePages p d c).status =
      if !(bothOkB p d) then "ERROR"
      else if comparePagesDiffCount p d c > 0 then "DIFF" else "OK" := rfl

theorem comparePages_diffCount_def (p d : PageData) (c : Checks) :
    (comparePages p d c).diffCount = comparePagesDiffCount p d c := rfl

theorem comparePages_notes_def (p d : PageData) (c : Checks) :
    (comparePages p d c).notes =
      if (comparePagesNotes p d c).length > 0 then
        joinNotes (comparePagesNotes p d c)
      else "All good" := rfl

theorem comparePages_ogImageMigration_def (p d : PageData) (c : Checks) :
    (comparePages p d c).ogImageMigration = ogImageMigrationB p d c := rfl

theorem comparePages_prodStatus_def (p d : PageData) (c : Checks) :
    (comparePages p d c).prodStatus = p.status := rfl

theorem comparePages_devStatus_def (p d : PageData) (c : Checks) :
    (comparePages p d c).devStatus = d.status := rfl

/-!
## Helper lemmas

String-head facts used to separate every produced note from the
`"All good"` sentinel, and the batch write-back lemmas for the
orchestrator.
-/

theorem head?_append_left {a : String} {ch : Char}
    (h : a.data.head? = some ch) (x : String) :
    (a ++ x).data.head? = some ch := by
  rw [String.data_append]
  cases ha : a.data with
  | nil =>
    rw [ha] at h
    exact absurd h (by simp)
  | cons c t =>
    rw [ha] at h
    rw [List.cons_append, List.head?_cons]
    exact h

theorem string_ne_of_head? {a b : String} {c1 c2 : Char}
    (ha : a.data.head? = some c1) (hb : b.data.head? = some c2)
    (hne : c1 ≠ c2) : a ≠ b := by
  intro he
  rw [he, hb] at ha
  exact hne (Option.some.inj ha).symm

theorem joinNotes_head? {s : String} {rest : List String} {ch : Char}
    (h : s.data.head? = some ch) :
    (joinNotes (s :: rest)).data.head? = some ch := by
  cases rest with
  | nil => exact h
  | cons a l =>
    show ((s ++ ", ") ++ joinNotes (a :: l)).data.head? = some ch
    exact head?_append_left (head?_append_left h ", ") (joinNotes (a :: l))

theorem prodLitHead : ("Prod: ").data.head? = some 'P' := rfl

theorem prodRedirLitHead : ("Prod redirected: ").data.head? = some 'P' := rfl

theorem devLitHead : ("Dev: ").data.head? = some 'D' := rfl

theorem devRedirLitHead : ("Dev redirected: ").data.head? = some 'D' := rfl

theorem mem_ite_singleton {α : Type} {s x : α} {P : Prop} [Decidable P]
    (h : s ∈ if P then [x] else ([] : List α)) : s = x := by
  split at h
  · exact List.mem_singleton.mp h
  · simp at h

theorem prodErrorNote_head (p : PageData) :
    (prodErrorNote p).data.head? = some 'P' := by
  unfold prodErrorNote
  split
  · exact head?_append_left
      (head?_append_left (head?_append_left prodLitHead _) _) _
  · exact head?_append_left prodLitHead _

theorem devErrorNote_head (d : PageData) :
    (devErrorNote d).data.head? = some 'D' := by
  unfold devErrorNote
  split
  · exact head?_append_left
      (head?_append_left (head?_append_left devLitHead _) _) _
  · exact head?_append_left devLitHead _

theorem prodRedirectNote_head (p : PageData) :
    (prodRedirectNote p).data.head? = some 'P' :=
  head?_append_left
    (head?_append_left (head?_append_left prodRedirLitHead _) _) _

theorem devRedirectNote_head (d : PageData) :
    (devRedirectNote d).data.head? = some 'D' :=
  head?_append_left
    (head?_append_left (head?_append_left devRedirLitHead _) _) _

theorem note_head_ok (p d : PageData) (c : Checks) :
    ∀ s ∈ comparePagesNotes p d c, ∃ ch, s.data.head? = some ch ∧ ch ≠ 'A' := by
  intro s hs
  unfold comparePagesNotes at hs
  split at hs
  · simp only [List.mem_append] at hs
    rcases hs with h | h
    · rw [mem_ite_singleton h]
      exact ⟨'P', prodErrorNote_head p, by decide⟩
    · rw [mem_ite_singleton h]
      exact ⟨'D', devErrorNote_head d, by decide⟩
  · simp only [List.mem_append] at hs
    rcases hs with ((((h | h) | h) | h) | h) | h
    · rw [mem_ite_singleton h]
      exact ⟨'P', prodRedirectNote_head p, by decide⟩
    · rw [mem_ite_singleton h]
      exact ⟨'D', devRedirectNote_head d, by decide⟩
    · rw [mem_ite_singleton h]
      exact ⟨'T', rfl, by decide⟩
    · rw [mem_ite_singleton h]
      exact ⟨'D', rfl, by decide⟩
    · rw [mem_ite_singleton h]
      exact ⟨'H', rfl, by decide⟩
    · rw [mem_ite_singleton h]
      refine ⟨'O', ?_, by decide⟩
      split <;> rfl

theorem length_writeSlot (f : String → ComparisonRecord) (urls : List String)
    (acc : List (Option ComparisonRecord)) (i : Nat) :
    (writeSlot f urls acc i).length = acc.length := by
  unfold writeSlot
  split <;> simp

theorem foldl_writeSlot_getElem? (f : String → ComparisonRecord)
    (urls : List String) (sched : List Nat)
    (acc : List (Option ComparisonRecord)) (hlen : acc.length = urls.length)
    (j : Nat) :
    (sched.foldl (writeSlot f urls) acc)[j]? =
      if j ∈ sched ∧ j < urls.length then some (urls[j]?.map f)
      else acc[j]? := by
  induction sched generalizing acc with
  | nil => simp
  | cons i rest ih =>
    rw [List.foldl_cons, ih (writeSlot f urls acc i)
      (by rw [length_writeSlot]; exact hlen)]
    by_cases hj : j ∈ rest ∧ j < urls.length
    · rw [if_pos hj, if_pos ⟨List.mem_cons_of_mem i hj.1, hj.2⟩]
    · rw [if_neg hj]
      by_cases hji : j = i ∧ j < urls.length
      · obtain ⟨hji1, hlt⟩ := hji
        subst hji1
        rw [if_pos ⟨List.mem_cons_self j rest, hlt⟩]
        unfold writeSlot
        rw [List.getElem?_eq_getElem hlt]
        exact List.getElem?_set_self (by rw [hlen]; exact hlt)
      · rw [if_neg (by
          intro hcon
          rcases List.mem_cons.mp hcon.1 with h | h
          · exact hji ⟨h, hcon.2⟩
          · exact hj ⟨h, hcon.2⟩)]
        unfold writeSlot
        cases hu : urls[i]? with
        | none => rfl
        | some u =>
          have hilt : i < urls.length := by
            rcases List.getElem?_eq_some_iff.mp hu with ⟨h, _⟩
            exact h
          by_cases hij : i = j
          · subst hij
            exact absurd ⟨rfl, hilt⟩ hji
          · exact List.getElem?_set_ne hij

theorem execBatch_eq_map (f : String → ComparisonRecord) (urls : List String)
    (sched : List Nat) (hcov : ∀ i, i < urls.length → i ∈ sched) :
    execBatch f urls sched = urls.map (fun u => some (f u)) := by
  apply List.ext_getElem?
  intro j
  unfold execBatch
  rw [foldl_writeSlot_getElem? f urls sched _ (by simp) j]
  by_cases hj : j < urls.length
  · rw [if_pos ⟨hcov j hj, hj⟩, List.getElem?_eq_getElem hj,
      List.getElem?_eq_getElem (by simpa using hj)]
    simp
  · rw [if_neg (by intro hcon; exact hj hcon.2),
      List.getElem?_eq_none (by simpa using Nat.le_of_not_lt hj),
      List.getElem?_eq_none (by simpa using Nat.le_of_not_lt hj)]

theorem execBatch_filterMap (f : String → ComparisonRecord)
    (urls : List String) (sched : List Nat)
    (hcov : ∀ i, i < urls.length → i ∈ sched) :
    (execBatch f urls sched).filterMap id = urls.map f := by
  rw [execBatch_eq_map f urls sched hcov, List.filterMap_map]
  exact congrFun (List.filterMap_eq_map f) urls

theorem effBatchSize_pos (cfg : Nat) : 0 < effBatchSize cfg := by
  unfold effBatchSize
  split
  · decide
  · next h => exact Nat.pos_of_ne_zero (by simpa using h)

theorem runBatchesAux_no_stop (f : String → ComparisonRecord) (bs total : Nat)
    (stopFlag : Nat → Bool) (sched : Nat → List Nat) (hbs : 0 < bs)
    (hstop : ∀ b, stopFlag b = false)
    (hsched : ∀ b i, i < bs → i ∈ sched b) :
    ∀ fuel remaining done bidx, remaining.length ≤ fuel →
      (runBatchesAux f bs total stopFlag sched fuel remaining done bidx).2.1
        = remaining.map f ∧
      (runBatchesAux f bs total stopFlag sched fuel remaining done bidx).2.2
        = false := by
  intro fuel
  induction fuel with
  | zero =>
    intro remaining done bidx hle
    have hnil : remaining = [] :=
      List.eq_nil_of_length_eq_zero (Nat.le_zero.mp hle)
    subst hnil
    exact ⟨rfl, rfl⟩
  | succ fuel ih =>
    intro remaining done bidx hle
    by_cases hre : remaining.isEmpty
    · have hnil : remaining = [] := List.isEmpty_iff.mp hre
      subst hnil
      exact ⟨rfl, rfl⟩
    · have hbatch : (execBatch f (remaining.take bs) (sched bidx)).filterMap id
          = (remaining.take bs).map f := by
        apply execBatch_filterMap
        intro i hi
        apply hsched bidx
        have : (remaining.take bs).length ≤ bs := by
          simp [List.length_take]
        omega
      obtain ⟨ih1, ih2⟩ := ih (remaining.drop bs)
        (done + (remaining.take bs).length) (bidx + 1) (by
          have h1 : remaining.length ≤ fuel + 1 := hle
          have h2 : remaining ≠ [] := by simpa using hre
          have h3 : 0 < remaining.length := List.length_pos.mpr h2
          simp [List.length_drop]
          omega)
      constructor
      · show (runBatchesAux f bs total stopFlag sched (fuel + 1) remaining
          done bidx).2.1 = remaining.map f
        simp only [runBatchesAux, hre, Bool.false_eq_true, if_false,
          hstop bidx]
        rw [hbatch, ih1]
        rw [← List.map_append, List.take_append_drop]
      · show (runBatchesAux f bs total stopFlag sched (fuel + 1) remaining
          done bidx).2.2 = false
        simp only [runBatchesAux, hre, Bool.false_eq_true, if_false,
          hstop bidx]
        exact ih2

theorem comparedEvents_no_complete (total : Nat) :
    ∀ done us rs s,
      ProgressEvent.complete s ∉ comparedEvents total done us rs := by
  intro done us
  induction us generalizing done with
  | nil =>
    intro rs s
    cases rs <;> simp [comparedEvents]
  | cons u us ih =>
    intro rs s
    cases rs with
    | nil => simp [comparedEvents]
    | cons r rs =>
      simp only [comparedEvents, List.mem_cons]
      rintro (h | h)
      · exact ProgressEvent.noConfusion h
      · exact ih (done + 1) rs s h

theorem runBatchesAux_no_complete (f : String → ComparisonRecord)
    (bs total : Nat) (stopFlag : Nat → Bool) (sched : Nat → List Nat) :
    ∀ fuel remaining done bidx s,
      ProgressEvent.complete s ∉
        (runBatchesAux f bs total stopFlag sched fuel remaining done bidx).1 := by
  intro fuel
  induction fuel with
  | zero =>
    intro remaining done bidx s
    simp [runBatchesAux]
  | succ fuel ih =>
    intro remaining done bidx s
    by_cases hre : remaining.isEmpty
    · simp [runBatchesAux, hre]
    · by_cases hsf : stopFlag bidx
      · simp [runBatchesAux, hre, hsf]
      · simp only [runBatchesAux, hre, Bool.false_eq_true, if_false,
          Bool.not_eq_true] at hsf ⊢
        rw [hsf]
        simp only [Bool.false_eq_true, if_false, List.mem_cons,
          List.mem_append]
        rintro (h | h | h)
        · exact ProgressEvent.noConfusion h
        · exact comparedEvents_no_complete total done _ _ s h
        · exact ih (remaining.drop bs) _ (bidx + 1) s h

theorem runBatchesAux_stop_at (f : String → ComparisonRecord) (bs total : Nat)
    (stopFlag : Nat → Bool) (sched : Nat → List Nat) (hbs : 0 < bs)
    (hsched : ∀ b i, i < bs → i ∈ sched b) :
    ∀ m fuel remaining done bidx,
      remaining.length ≤ fuel →
      (∀ j, j < m → stopFlag (bidx + j) = false) →
      stopFlag (bidx + m) = true →
      m * bs < remaining.length →
      (runBatchesAux f bs total stopFlag sched fuel remaining done bidx).2.1
        = (remaining.take (m * bs)).map f ∧
      (runBatchesAux f bs total stopFlag sched fuel remaining done bidx).2.2
        = true ∧
      (runBatchesAux f bs total stopFlag sched fuel remaining done bidx).1.getLast?
        = some ProgressEvent.stopped := by
  intro m
  induction m with
  | zero =>
    intro fuel remaining done bidx hle hbefore hstop hlt
    rw [Nat.zero_mul] at hlt
    have hre : remaining.isEmpty = false := by
      rw [List.isEmpty_eq_false]
      intro h
      rw [h] at hlt
      simp at hlt
    cases fuel with
    | zero =>
      exact absurd (Nat.le_zero.mp hle) (by omega)
    | succ fuel =>
      have hsf : stopFlag bidx = true := by
        rw [← Nat.add_zero bidx]
        exact hstop
      simp [runBatchesAux, hre, hsf]
  | succ m ih =>
    intro fuel remaining done bidx hle hbefore hstop hlt
    have hmul : (m + 1) * bs = m * bs + bs := Nat.succ_mul m bs
    have hpos : 0 < remaining.length := by
      have h1 : bs ≤ (m + 1) * bs := by
        rw [hmul]
        omega
      omega
    have hre : remaining.isEmpty = false := by
      rw [List.isEmpty_eq_false]
      intro h
      rw [h] at hpos
      simp at hpos
    cases fuel with
    | zero => exact absurd (Nat.le_zero.mp hle) (by omega)
    | succ fuel =>
      have hsf : stopFlag bidx = false := by
        have h0 := hbefore 0 (Nat.succ_pos m)
        rwa [Nat.add_zero] at h0
      have htake : (remaining.take bs).length = bs := by
        simp [List.length_take]
        omega
      have hbatch : (execBatch f (remaining.take bs) (sched bidx)).filterMap id
          = (remaining.take bs).map f := by
        apply execBatch_filterMap
        intro i hi
        apply hsched bidx
        rw [htake] at hi
        exact hi
      obtain ⟨ih1, ih2, ih3⟩ := ih fuel (remaining.drop bs)
        (done + (remaining.take bs).length) (bidx + 1)
        (by simp [List.length_drop]; omega)
        (fun j hj => by
          have h := hbefore (j + 1) (by omega)
          rwa [show bidx + (j + 1) = bidx + 1 + j by omega] at h)
        (by
          have h : bidx + (m + 1) = bidx + 1 + m := by omega
          rwa [h] at hstop)
        (by
          rw [List.length_drop]
          omega)
      refine ⟨?_, ?_, ?_⟩
      · show (runBatchesAux f bs total stopFlag sched (fuel + 1) remaining
          done bidx).2.1 = (remaining.take ((m + 1) * bs)).map f
        simp only [runBatchesAux, hre, Bool.false_eq_true, if_false, hsf]
        rw [hbatch, ih1, ← List.map_append]
        congr 1
        rw [hmul, Nat.add_comm (m * bs) bs, List.take_add]
      · simp only [runBatchesAux, hre, Bool.false_eq_true, if_false, hsf]
        exact ih2
      · simp only [runBatchesAux, hre, Bool.false_eq_true, if_false, hsf]
        obtain ⟨ys, hys⟩ := List.getLast?_eq_some_iff.mp ih3
        rw [hys]
        rw [show ProgressEvent.fetching (done + 1) total
              (remaining.take bs).length ::
            (comparedEvents total done (remaining.take bs)
              ((execBatch f (remaining.take bs) (sched bidx)).filterMap id) ++
              (ys ++ [ProgressEvent.stopped])) =
            (ProgressEvent.fetching (done + 1) total
              (remaining.take bs).length ::
            (comparedEvents total done (remaining.take bs)
              ((execBatch f (remaining.take bs) (sched bidx)).filterMap id) ++
              ys)) ++ [ProgressEvent.stopped] from by simp]
        exact List.getLast?_concat _

/-!
## Claim theorems
-/

/-- C1: for every record produced by `comparePages`, `status = "ERROR"`
iff one side's HTTP status is not 200; `status = "DIFF"` iff both sides
are 200 and `diffCount > 0`; and otherwise — both sides 200 with
`diffCount = 0` — `status = "OK"`. -/
theorem comparePages_status_invariant (p d : PageData) (c : Checks) :
    ((comparePages p d c).status = "ERROR" ↔
      ((comparePages p d c).prodStatus ≠ 200 ∨
       (comparePages p d c).devStatus ≠ 200)) ∧
    ((comparePages p d c).status = "DIFF" ↔
      ((comparePages p d c).prodStatus = 200 ∧
       (comparePages p d c).devStatus = 200 ∧
       0 < (comparePages p d c).diffCount)) ∧
    ((comparePages p d c).status = "OK" ↔
      ((comparePages p d c).prodStatus = 200 ∧
       (comparePages p d c).devStatus = 200 ∧
       (comparePages p d c).diffCount = 0)) := by
  rcases Nat.eq_zero_or_pos (comparePagesDiffCount p d c) with h | h <;>
    by_cases hp : p.status = 200 <;> by_cases hd : d.status = 200 <;>
      simp [comparePages, bothOkB, hp, hd, h, Nat.pos_iff_ne_zero]
  all_goals omega

/-- C2: when both sides are 200, the `diffCount` of the record returned
by `comparePages` equals the spec's count — the number of enabled fields
with unequal values under exact string equality, minus an OG-image
mismatch classified as a CDN-migration exception. -/
theorem comparePages_diffCount_eq_spec (p d : PageData) (c : Checks)
    (hp : p.status = 200) (hd : d.status = 200) :
    (comparePages p d c).diffCount = specDiffCount p d c := by
  have hboth : bothOkB p d = true := by simp [bothOkB, hp, hd]
  simp only [comparePages, specDiffCount, comparePagesDiffCount, hboth,
    titleMatchB, descMatchB, h1MatchB, ogImageMatchB, ogImageMigrationB,
    Bool.not_true, Bool.false_and, Bool.and_true, Bool.true_and]
  by_cases ht : c.title <;> by_cases h1 : p.title = d.title <;>
    by_cases hde : c.description <;>
      by_cases h2 : p.description = d.description <;>
        simp [ht, h1, hde, h2]
  all_goals (
    by_cases hh : c.h1 <;> by_cases h3 : p.h1 = d.h1 <;>
      by_cases ho : c.ogImage <;> by_cases h4 : p.ogImage = d.ogImage <;>
        by_cases hm : isExpectedOgImageMigration p.ogImage d.ogImage = true <;>
          simp [hh, h3, ho, h4, hm])

/-- C2 witness: the theorem applied to a concrete pair with a title
mismatch; both counts evaluate to 1. -/
theorem comparePages_diffCount_eq_spec_witness :
    pOkW.status = 200 ∧ dDiffW.status = 200 ∧
    (comparePages pOkW dDiffW checksAll).diffCount
      = specDiffCount pOkW dDiffW checksAll ∧
    specDiffCount pOkW dDiffW checksAll = 1 :=
  ⟨rfl, rfl, comparePages_diffCount_eq_spec pOkW dDiffW checksAll rfl rfl,
    by decide⟩

/-- C3: with both sides 200, the image check enabled and unequal
non-empty image URLs — if the production URL contains a legacy-CDN host
string and the development URL contains the new-CDN host string, the
record flags the migration and the mismatch is excluded from `diffCount`
(so it alone never forces DIFF); for any other host combination the flag
is false and the mismatch is counted like a normal field difference. -/
theorem comparePages_ogImage_migration_rule (p d : PageData) (c : Checks)
    (hp : p.status = 200) (hd : d.status = 200) (hc : c.ogImage = true)
    (hne : p.ogImage ≠ d.ogImage) (hpe : p.ogImage ≠ "")
    (hde : d.ogImage ≠ "") :
    ((prodIsWebflowHost p.ogImage && devIsSanityHost d.ogImage) = true →
      (comparePages p d c).ogImageMigration = true ∧
      (comparePages p d c).diffCount = nonOgDiffCount p d c ∧
      (nonOgDiffCount p d c = 0 → (comparePages p d c).status = "OK")) ∧
    ((prodIsWebflowHost p.ogImage && devIsSanityHost d.ogImage) = false →
      (comparePages p d c).ogImageMigration = false ∧
      (comparePages p d c).diffCount = nonOgDiffCount p d c + 1 ∧
      (comparePages p d c).status = "DIFF") := by
  have hboth : bothOkB p d = true := by simp [bothOkB, hp, hd]
  have hmatch : ogImageMatchB p d c = false := by
    simp [ogImageMatchB, hc, hne]
  have hmig : isExpectedOgImageMigration p.ogImage d.ogImage =
      (prodIsWebflowHost p.ogImage && devIsSanityHost d.ogImage) := by
    have h1 : p.ogImage.isEmpty = false := by
      rw [Bool.eq_false_iff]
      intro hh
      exact hpe ((String.isEmpty_iff _).mp hh)
    have h2 : d.ogImage.isEmpty = false := by
      rw [Bool.eq_false_iff]
      intro hh
      exact hde ((String.isEmpty_iff _).mp hh)
    simp [isExpectedOgImageMigration, h1, h2]
  constructor
  · intro h
    have hm : ogImageMigrationB p d c = true := by
      simp [ogImageMigrationB, hc, hmatch, hmig, h]
    have hdc : comparePagesDiffCount p d c = nonOgDiffCount p d c := by
      simp [comparePagesDiffCount, nonOgDiffCount, hboth, hm]
    refine ⟨by rw [comparePages_ogImageMigration_def, hm], ?_, ?_⟩
    · rw [comparePages_diffCount_def, hdc]
    · intro h0
      rw [comparePages_status_def, hboth, hdc, h0]
      simp
  · intro h
    have hm : ogImageMigrationB p d c = false := by
      simp [ogImageMigrationB, hc, hmatch, hmig, h]
    have hdc : comparePagesDiffCount p d c = nonOgDiffCount p d c + 1 := by
      simp [comparePagesDiffCount, nonOgDiffCount, hboth, hm, hc, hmatch]
    refine ⟨by rw [comparePages_ogImageMigration_def, hm], ?_, ?_⟩
    · rw [comparePages_diffCount_def, hdc]
    · rw [comparePages_status_def, hboth, hdc]
      simp

/-- C3 witness: the theorem applied to a Webflow-hosted production image
against a Sanity-hosted development image, all else equal; both branch
conclusions are available, and the migration branch applies. -/
theorem comparePages_ogImage_migration_rule_witness :
    pMigW.status = 200 ∧ dMigW.status = 200 ∧ checksAll.ogImage = true ∧
    pMigW.ogImage ≠ dMigW.ogImage ∧ pMigW.ogImage ≠ "" ∧
    dMigW.ogImage ≠ "" ∧
    (prodIsWebflowHost pMigW.ogImage && devIsSanityHost dMigW.ogImage)
      = true ∧
    (((prodIsWebflowHost pMigW.ogImage && devIsSanityHost dMigW.ogImage)
        = true →
      (comparePages pMigW dMigW checksAll).ogImageMigration = true ∧
      (comparePages pMigW dMigW checksAll).diffCount
        = nonOgDiffCount pMigW dMigW checksAll ∧
      (nonOgDiffCount pMigW dMigW checksAll = 0 →
        (comparePages pMigW dMigW checksAll).status = "OK")) ∧
     ((prodIsWebflowHost pMigW.ogImage && devIsSanityHost dMigW.ogImage)
        = false →
      (comparePages pMigW dMigW checksAll).ogImageMigration = false ∧
      (comparePages pMigW dMigW checksAll).diffCount
        = nonOgDiffCount pMigW dMigW checksAll + 1 ∧
      (comparePages pMigW dMigW checksAll).status = "DIFF")) :=
  ⟨rfl, rfl, rfl, by decide, by decide, by decide, by decide,
    comparePages_ogImage_migration_rule pMigW dMigW checksAll rfl rfl rfl
      (by decide) (by decide) (by decide)⟩

/-- C4: whenever one side's status is not 200, the record is classified
ERROR with `diffCount = 0`, the notes list holds exactly one entry per
failing side — the redirect description when that side redirected,
otherwise the bare status — and the record's notes string is their
comma join (never the sentinel, since the list is non-empty). -/
theorem comparePages_error_gate (p d : PageData) (c : Checks)
    (h : p.status ≠ 200 ∨ d.status ≠ 200) :
    (comparePages p d c).status = "ERROR" ∧
    (comparePages p d c).diffCount = 0 ∧
    comparePagesNotes p d c =
      (if p.status ≠ 200 then [prodErrorNote p] else []) ++
      (if d.status ≠ 200 then [devErrorNote d] else []) ∧
    (comparePagesNotes p d c).length =
      ((if p.status ≠ 200 then 1 else 0) +
       (if d.status ≠ 200 then 1 else 0)) ∧
    (comparePages p d c).notes = joinNotes (comparePagesNotes p d c) := by
  have hboth : bothOkB p d = false := by
    rcases h with h | h <;> simp [bothOkB, h]
  have hnotes : comparePagesNotes p d c =
      (if p.status ≠ 200 then [prodErrorNote p] else []) ++
      (if d.status ≠ 200 then [devErrorNote d] else []) := by
    simp only [comparePagesNotes, hboth, Bool.not_false, if_true,
      bne_iff_ne, ne_eq]
  have hlen : (comparePagesNotes p d c).length =
      ((if p.status ≠ 200 then 1 else 0) +
       (if d.status ≠ 200 then 1 else 0)) := by
    rw [hnotes]
    by_cases hp : p.status = 200 <;> by_cases hd : d.status = 200 <;>
      simp [hp, hd]
  have hpos : 0 < (comparePagesNotes p d c).length := by
    rw [hlen]
    rcases h with h | h <;> simp [h]
  refine ⟨?_, ?_, hnotes, hlen, ?_⟩
  · rw [comparePages_status_def, hboth]
    rfl
  · rw [comparePages_diffCount_def]
    simp [comparePagesDiffCount, hboth]
  · rw [comparePages_notes_def, if_pos hpos]

/-- C4 witness: the theorem applied to a healthy production side and a
404 development side; the notes list is exactly the one dev entry. -/
theorem comparePages_error_gate_witness :
    (pOkW.status ≠ 200 ∨ d404W.status ≠ 200) ∧
    ((comparePages pOkW d404W checksAll).status = "ERROR" ∧
     (comparePages pOkW d404W checksAll).diffCount = 0 ∧
     comparePagesNotes pOkW d404W checksAll =
       (if pOkW.status ≠ 200 then [prodErrorNote pOkW] else []) ++
       (if d404W.status ≠ 200 then [devErrorNote d404W] else []) ∧
     (comparePagesNotes pOkW d404W checksAll).length =
       ((if pOkW.status ≠ 200 then 1 else 0) +
        (if d404W.status ≠ 200 then 1 else 0)) ∧
     (comparePages pOkW d404W checksAll).notes
       = joinNotes (comparePagesNotes pOkW d404W checksAll)) ∧
    (comparePages pOkW d404W checksAll).notes = "Dev: 404" :=
  ⟨Or.inr (by decide),
   comparePages_error_gate pOkW d404W checksAll (Or.inr (by decide)),
   by decide⟩

/-- C5 counterexample: a fetch terminating in a plain 404 returns that
status with empty fields, but — contrary to the claim's "no error
message set" — the error field carries the client's rejection message,
because the HTTP client rejects every non-2xx terminal status. -/
theorem fetchPageData_non200_error_cex :
    (fetchPageData net404 "/pricing" checksAll).status = 404 ∧
    (fetchPageData net404 "/pricing" checksAll).title = "" ∧
    (fetchPageData net404 "/pricing" checksAll).description = "" ∧
    (fetchPageData net404 "/pricing" checksAll).h1 = "" ∧
    (fetchPageData net404 "/pricing" checksAll).ogImage = "" ∧
    (fetchPageData net404 "/pricing" checksAll).error =
      some "Request failed with status code 404" ∧
    (fetchPageData net404 "/pricing" checksAll).error ≠ none := by
  decide

/-- C5 amended: for every fetch terminating with a non-2xx HTTP status,
`fetchPageData` returns a result carrying that status, all four fields
empty, and the error message set to the client's failure description. -/
theorem fetchPageData_non2xx_result (net : NetResult) (path : String)
    (c : Checks) (st : Nat) (body : HtmlDoc)
    (hterm : net.terminal = NetTerminal.response st body)
    (hst : ¬(200 ≤ st ∧ st < 300)) :
    (fetchPageData net path c).status = st ∧
    (fetchPageData net path c).title = "" ∧
    (fetchPageData net path c).description = "" ∧
    (fetchPageData net path c).h1 = "" ∧
    (fetchPageData net path c).ogImage = "" ∧
    (fetchPageData net path c).error = some (axiosFailureMessage st) := by
  unfold fetchPageData
  rw [hterm]
  simp [hst]

/-- C5 witness: the amended theorem applied to the concrete 404
exchange. -/
theorem fetchPageData_non2xx_result_witness :
    net404.terminal = NetTerminal.response 404 docSample ∧
    ¬(200 ≤ 404 ∧ 404 < 300) ∧
    ((fetchPageData net404 "/x" checksAll).status = 404 ∧
     (fetchPageData net404 "/x" checksAll).title = "" ∧
     (fetchPageData net404 "/x" checksAll).description = "" ∧
     (fetchPageData net404 "/x" checksAll).h1 = "" ∧
     (fetchPageData net404 "/x" checksAll).ogImage = "" ∧
     (fetchPageData net404 "/x" checksAll).error =
       some (axiosFailureMessage 404)) :=
  ⟨rfl, by decide,
    fetchPageData_non2xx_result net404 "/x" checksAll 404 docSample rfl
      (by decide)⟩

/-- C6 counterexample: after two redirect hops the result records the
destination of the first hop, not the final resolved path the claim
names — the `beforeRedirect` hook fires per hop and the source's guard
keeps only the first firing. -/
theorem fetchPageData_redirect_cex :
    (fetchPageData netTwoHops "/old" checksAll).redirected = true ∧
    finalResolvedPath netTwoHops "/old" = "/final" ∧
    (fetchPageData netTwoHops "/old" checksAll).redirectStatus = some 301 ∧
    (fetchPageData netTwoHops "/old" checksAll).redirectUrl = some "/mid" ∧
    (fetchPageData netTwoHops "/old" checksAll).redirectUrl ≠
      some (finalResolvedPath netTwoHops "/old") := by
  decide

/-- C6 amended: whenever at least one redirect hop occurred, the result
marks the fetch redirected and records the first hop's status code and
the path of the first hop's destination (equal to the final resolved
path only when exactly one hop occurred), and it does so uniformly for
every terminal outcome — 200, non-200 or transport failure. -/
theorem fetchPageData_redirect_first_hop (net : NetResult) (path : String)
    (c : Checks) (hop : RedirectHop) (rest : List RedirectHop)
    (hh : net.hops = hop :: rest) :
    (fetchPageData net path c).redirected = true ∧
    (fetchPageData net path c).redirectStatus = some hop.statusCode ∧
    (fetchPageData net path c).redirectUrl = some hop.targetPath := by
  unfold fetchPageData
  cases hterm : net.terminal with
  | response st body =>
    split <;> simp [hh]
    split <;> simp
  | netError msg =>
    simp [hh]

/-- C6 witness: the amended theorem applied to the one-hop exchange. -/
theorem fetchPageData_redirect_first_hop_witness :
    netOneHop.hops =
      { statusCode := 301, targetPath := "/new" } :: ([] : List RedirectHop) ∧
    ((fetchPageData netOneHop "/old" checksAll).redirected = true ∧
     (fetchPageData netOneHop "/old" checksAll).redirectStatus
       = some (301 : Nat) ∧
     (fetchPageData netOneHop "/old" checksAll).redirectUrl = some "/new") :=
  ⟨rfl, fetchPageData_redirect_first_hop netOneHop "/old" checksAll
    { statusCode := 301, targetPath := "/new" } [] rfl⟩

/-- C7: a run over N paths with no stop request yields exactly N records,
and the record at each position is the comparison of the path at that
position — for every completion schedule of every batch, i.e. regardless
of the order in which the concurrent fetches complete. -/
theorem runParser_order_preservation (net : String → NetResult × NetResult)
    (checks : Checks) (urls : List String) (cfg : Nat)
    (stopFlag : Nat → Bool) (sched : Nat → List Nat)
    (hstop : ∀ b, stopFlag b = false)
    (hsched : ∀ b i, i < effBatchSize cfg → i ∈ sched b) :
    (runParser net checks urls cfg stopFlag sched).results
      = urls.map (pageRecord net checks) ∧
    (runParser net checks urls cfg stopFlag sched).results.length
      = urls.length ∧
    (runParser net checks urls cfg stopFlag sched).stopped = false := by
  obtain ⟨h1, h2⟩ := runBatchesAux_no_stop (pageRecord net checks)
    (effBatchSize cfg) urls.length stopFlag sched (effBatchSize_pos cfg)
    hstop hsched urls.length urls 0 0 (Nat.le_refl _)
  unfold runParser
  simp only [h2, Bool.false_eq_true, if_false]
  refine ⟨h1, ?_, ?_⟩
  · rw [h1]
    simp
  · trivial

/-- C7 witness: a three-path run with batch size 2 and a reversed
completion schedule in every batch still yields the records in input
order. -/
theorem runParser_order_preservation_witness :
    (∀ b : Nat, (fun _ : Nat => false) b = false) ∧
    (∀ b i : Nat, i < effBatchSize 2 → i ∈ ([1, 0] : List Nat)) ∧
    ((runParser netWit checksAll ["/a", "/b", "/c"] 2 (fun _ => false)
        (fun _ => [1, 0])).results
      = ["/a", "/b", "/c"].map (pageRecord netWit checksAll) ∧
     (runParser netWit checksAll ["/a", "/b", "/c"] 2 (fun _ => false)
        (fun _ => [1, 0])).results.length = 3 ∧
     (runParser netWit checksAll ["/a", "/b", "/c"] 2 (fun _ => false)
        (fun _ => [1, 0])).stopped = false) := by
  have hs : ∀ b i : Nat, i < effBatchSize 2 → i ∈ ([1, 0] : List Nat) := by
    intro _ i h
    have h2 : i < 2 := h
    interval_cases i <;> decide
  exact ⟨fun _ => rfl, hs,
    runParser_order_preservation netWit checksAll ["/a", "/b", "/c"] 2
      (fun _ => false) (fun _ => [1, 0]) (fun _ => rfl) hs⟩

/-- C8: when the stop flag first reads true at the check before batch k
(0-based) and that batch exists, the run returns exactly the records of
the k earlier full batches, reports itself stopped, its event stream
ends with the terminal `stopped` event, and no `complete` event is ever
emitted. -/
theorem runParser_cancellation (net : String → NetResult × NetResult)
    (checks : Checks) (urls : List String) (cfg : Nat)
    (stopFlag : Nat → Bool) (sched : Nat → List Nat) (k : Nat)
    (hsched : ∀ b i, i < effBatchSize cfg → i ∈ sched b)
    (hbefore : ∀ j, j < k → stopFlag j = false)
    (hk : stopFlag k = true)
    (hreach : k * effBatchSize cfg < urls.length) :
    (runParser net checks urls cfg stopFlag sched).results
      = (urls.take (k * effBatchSize cfg)).map (pageRecord net checks) ∧
    (runParser net checks urls cfg stopFlag sched).stopped = true ∧
    (runParser net checks urls cfg stopFlag sched).events.getLast?
      = some ProgressEvent.stopped ∧
    (∀ s, ProgressEvent.complete s ∉
      (runParser net checks urls cfg stopFlag sched).events) := by
  obtain ⟨h1, h2, h3⟩ := runBatchesAux_stop_at (pageRecord net checks)
    (effBatchSize cfg) urls.length stopFlag sched (effBatchSize_pos cfg)
    hsched k urls.length urls 0 0 (Nat.le_refl _)
    (fun j hj => by simpa using hbefore j hj)
    (by simpa using hk) hreach
  unfold runParser
  simp only [h2, if_true]
  refine ⟨h1, ?_, ?_, ?_⟩
  · trivial
  · obtain ⟨ys, hys⟩ := List.getLast?_eq_some_iff.mp h3
    rw [hys]
    rw [show ProgressEvent.start urls.length ::
        (ys ++ [ProgressEvent.stopped]) =
        (ProgressEvent.start urls.length :: ys) ++ [ProgressEvent.stopped]
      from by simp]
    exact List.getLast?_concat _
  · intro s
    simp only [List.mem_cons]
    rintro (h | h)
    · exact ProgressEvent.noConfusion h
    · exact runBatchesAux_no_complete (pageRecord net checks)
        (effBatchSize cfg) urls.length stopFlag sched urls.length urls 0 0
        s h

/-- C8 witness: three paths, batch size 2, stop requested before batch 1
(0-based) — the run keeps exactly the two records of batch 0, ends with
the `stopped` event and emits no `complete`. -/
theorem runParser_cancellation_witness :
    (∀ b i : Nat, i < effBatchSize 2 → i ∈ ([1, 0] : List Nat)) ∧
    (∀ j : Nat, j < 1 → (fun b : Nat => b == 1) j = false) ∧
    ((fun b : Nat => b == 1) 1 = true) ∧
    (1 * effBatchSize 2 < (["/a", "/b", "/c"] : List String).length) ∧
    ((runParser netWit checksAll ["/a", "/b", "/c"] 2 (fun b => b == 1)
        (fun _ => [1, 0])).results
      = ((["/a", "/b", "/c"] : List String).take (1 * effBatchSize 2)).map
          (pageRecord netWit checksAll) ∧
     (runParser netWit checksAll ["/a", "/b", "/c"] 2 (fun b => b == 1)
        (fun _ => [1, 0])).stopped = true ∧
     (runParser netWit checksAll ["/a", "/b", "/c"] 2 (fun b => b == 1)
        (fun _ => [1, 0])).events.getLast? = some ProgressEvent.stopped ∧
     (∀ s, ProgressEvent.complete s ∉
       (runParser netWit checksAll ["/a", "/b", "/c"] 2 (fun b => b == 1)
         (fun _ => [1, 0])).events)) := by
  have hs : ∀ b i : Nat, i < effBatchSize 2 → i ∈ ([1, 0] : List Nat) := by
    intro _ i h
    have h2 : i < 2 := h
    interval_cases i <;> decide
  have hb : ∀ j : Nat, j < 1 → (fun b : Nat => b == 1) j = false := by
    intro j hj
    have hj0 : j = 0 := by omega
    subst hj0
    rfl
  exact ⟨hs, hb, rfl, by decide,
    runParser_cancellation netWit checksAll ["/a", "/b", "/c"] 2
      (fun b => b == 1) (fun _ => [1, 0]) 1 hs hb rfl (by decide)⟩

/-- C9: if `comparePages` produced no notes at all, the record's notes
field is exactly the `"All good"` sentinel; otherwise it is the comma
join of the produced entries and can never equal the sentinel, since
every possible note starts with "Prod", "Dev", "Title", "Description",
"H1" or "OG Image". -/
theorem comparePages_notes_sentinel (p d : PageData) (c : Checks) :
    (comparePagesNotes p d c = [] →
      (comparePages p d c).notes = "All good") ∧
    (comparePagesNotes p d c ≠ [] →
      (comparePages p d c).notes = joinNotes (comparePagesNotes p d c) ∧
      (comparePages p d c).notes ≠ "All good") := by
  constructor
  · intro h
    rw [comparePages_notes_def, h]
    rfl
  · intro h
    obtain ⟨a, l, hn⟩ := List.exists_cons_of_ne_nil h
    have hlen : 0 < (comparePagesNotes p d c).length := by
      rw [hn]
      simp
    have hnotes : (comparePages p d c).notes =
        joinNotes (comparePagesNotes p d c) := by
      rw [comparePages_notes_def, if_pos hlen]
    refine ⟨hnotes, ?_⟩
    rw [hnotes, hn]
    obtain ⟨ch, hch, hA⟩ := note_head_ok p d c a (by
      rw [hn]
      exact List.mem_cons_self a l)
    exact string_ne_of_head? (joinNotes_head? hch)
      (show ("All good").data.head? = some 'A' from rfl) hA

/-- C9 witness: the theorem applied to an all-equal pair (sentinel) and
to a pair with a title mismatch (join, not the sentinel). -/
theorem comparePages_notes_sentinel_witness :
    comparePagesNotes pOkW pOkW checksAll = [] ∧
    (comparePages pOkW pOkW checksAll).notes = "All good" ∧
    comparePagesNotes pOkW dDiffW checksAll ≠ [] ∧
    ((comparePages pOkW dDiffW checksAll).notes
       = joinNotes (comparePagesNotes pOkW dDiffW checksAll) ∧
     (comparePages pOkW dDiffW checksAll).notes ≠ "All good") :=
  ⟨by decide,
   (comparePages_notes_sentinel pOkW pOkW checksAll).1 (by decide),
   by decide,
   (comparePages_notes_sentinel pOkW dDiffW checksAll).2 (by decide)⟩

/-- C10: a field whose flag is disabled always reports the matching
indicator "✅", and the record — notes, diffCount and status included —
is unchanged under any values of that field's stored prod/dev strings
(only the stored values themselves move), so a disabled field can never
cause DIFF; a disabled image check additionally forces the migration
flag to false. -/
theorem comparePages_disabled_field (p d : PageData) (c : Checks)
    (x y : String) :
    (c.title = false →
      (comparePages p d c).titleMatch = "✅" ∧
      comparePages { p with title := x } { d with title := y } c
        = { comparePages p d c with prodTitle := x, devTitle := y }) ∧
    (c.description = false →
      (comparePages p d c).descMatch = "✅" ∧
      comparePages { p with description := x } { d with description := y } c
        = { comparePages p d c with
              prodDescription := x, devDescription := y }) ∧
    (c.h1 = false →
      (comparePages p d c).h1Match = "✅" ∧
      comparePages { p with h1 := x } { d with h1 := y } c
        = { comparePages p d c with prodH1 := x, devH1 := y }) ∧
    (c.ogImage = false →
      (comparePages p d c).ogImageMatch = "✅" ∧
      (comparePages p d c).ogImageMigration = false ∧
      comparePages { p with ogImage := x } { d with ogImage := y } c
        = { comparePages p d c with prodOgImage := x, devOgImage := y }) := by
  obtain ⟨ct, cd, ch2, co⟩ := c
  refine ⟨fun hc => ?_, fun hc => ?_, fun hc => ?_, fun hc => ?_⟩
  · cases ct
    · exact ⟨rfl, rfl⟩
    · exact Bool.noConfusion hc
  · cases cd
    · exact ⟨rfl, rfl⟩
    · exact Bool.noConfusion hc
  · cases ch2
    · exact ⟨rfl, rfl⟩
    · exact Bool.noConfusion hc
  · cases co
    · exact ⟨rfl, rfl, rfl⟩
    · exact Bool.noConfusion hc

/-- C10 witness: with the title check disabled, changing the stored
titles to arbitrary unequal values moves only the stored values; the
match indicator stays "✅" and status, diffCount and notes are
untouched. -/
theorem comparePages_disabled_field_witness :
    checksNoTitle.title = false ∧
    ((comparePages pOkW pOkW checksNoTitle).titleMatch = "✅" ∧
     comparePages { pOkW with title := "X" } { pOkW with title := "Y" }
        checksNoTitle
       = { comparePages pOkW pOkW checksNoTitle with
             prodTitle := "X", devTitle := "Y" }) ∧
    (comparePages { pOkW with title := "X" } { pOkW with title := "Y" }
        checksNoTitle).status = "OK" ∧
    (comparePages { pOkW with title := "X" } { pOkW with title := "Y" }
        checksNoTitle).diffCount = 0 :=
  ⟨rfl,
   (comparePages_disabled_field pOkW pOkW checksNoTitle "X" "Y").1 rfl,
   by decide, by decide⟩
